import Mathlib

/-!
Shallow embedding of the chatbot-kim recommender actions
(`src/rasa/KI-Campus_de/actions/actions_recommender.py`).

Python strings are modelled as Lean `String`; Python dicts appearing as JSON
objects with known iteration order are modelled as association lists; the
localized response texts (loaded from files outside the repository's action
code) are modelled by their response identifiers; HTTP calls are modelled by
passing the response (status, body) as an explicit argument.
-/

/-- Python `str.lower()` restricted to the characters occurring in this
repository's catalogs and inputs: ASCII letters plus the German umlauts. -/
def pyCharLower (c : Char) : Char :=
  if 65 ≤ c.toNat ∧ c.toNat ≤ 90 then Char.ofNat (c.toNat + 32)
  else if c = 'Ä' then 'ä'
  else if c = 'Ö' then 'ö'
  else if c = 'Ü' then 'ü'
  else c

/-- Python `str.upper()` for single characters, same restriction. -/
def pyCharUpper (c : Char) : Char :=
  if 97 ≤ c.toNat ∧ c.toNat ≤ 122 then Char.ofNat (c.toNat - 32)
  else if c = 'ä' then 'Ä'
  else if c = 'ö' then 'Ö'
  else if c = 'ü' then 'Ü'
  else c

/-- Python `s.lower()`. -/
def pyLower (s : String) : String := String.mk (s.toList.map pyCharLower)

/-- Python `s.capitalize()`: first character upper-cased, the rest lower-cased. -/
def pyCapitalize (s : String) : String :=
  match s.toList with
  | [] => ""
  | c :: cs => String.mk (pyCharUpper c :: cs.map pyCharLower)

/-- `listStartsWith n h` is true iff `n` is a prefix of `h`. -/
def listStartsWith : List Char → List Char → Bool
  | [], _ => true
  | _ :: _, [] => false
  | a :: as, b :: bs => a = b && listStartsWith as bs

/-- `listContainsSub n h` is true iff `n` occurs as a contiguous sublist of `h`.
Models Python's `n in h` for strings. -/
def listContainsSub (n : List Char) : List Char → Bool
  | [] => listStartsWith n []
  | b :: bs => listStartsWith n (b :: bs) || listContainsSub n bs

/-- Python `needle in haystack` (substring test). -/
def strContains (haystack needle : String) : Bool :=
  listContainsSub needle.toList haystack.toList

/-- `stripPre pat l` removes prefix `pat` from `l`, if present. -/
def stripPre : List Char → List Char → Option (List Char)
  | [], l => some l
  | _ :: _, [] => none
  | a :: as, b :: bs => if a = b then stripPre as bs else none

/-- Fuelled worker for `strReplace`. -/
def replaceAux (pat rep : List Char) : Nat → List Char → List Char
  | _, [] => []
  | 0, s => s
  | fuel + 1, c :: cs =>
    match stripPre pat (c :: cs) with
    | some rest => rep ++ replaceAux pat rep fuel rest
    | none => c :: replaceAux pat rep fuel cs

/-- Python `s.replace(pat, rep)` (all non-overlapping occurrences, left to
right), for non-empty `pat`. -/
def strReplace (s pat rep : String) : String :=
  String.mk (replaceAux pat.toList rep.toList (s.toList.length + 1) s.toList)

/-- Decimal digit. -/
def digitChar (n : Nat) : Char := Char.ofNat (48 + n)

/-- Fuelled decimal rendering worker. -/
def natToStrAux : Nat → Nat → List Char
  | 0, _ => []
  | fuel + 1, n =>
    if n < 10 then [digitChar n]
    else natToStrAux fuel (n / 10) ++ [digitChar (n % 10)]

/-- Python `str(n)` for a non-negative integer. -/
def natToStr (n : Nat) : String := String.mk (natToStrAux (n + 1) n)

/-- UTF-8 encoding of a code point, as byte values. -/
def utf8Bytes (n : Nat) : List Nat :=
  if n < 0x80 then [n]
  else if n < 0x800 then [0xC0 + n / 64, 0x80 + n % 64]
  else if n < 0x10000 then [0xE0 + n / 4096, 0x80 + (n / 64) % 64, 0x80 + n % 64]
  else [0xF0 + n / 262144, 0x80 + (n / 4096) % 64, 0x80 + (n / 64) % 64, 0x80 + n % 64]

/-- Uppercase hex digit. -/
def hexDigit (n : Nat) : Char := Char.ofNat (if n < 10 then 48 + n else 55 + n)

/-- Percent-encoding of one byte, as in Python's `urllib.parse.quote_plus`:
unreserved bytes kept, space becomes `+`, everything else `%XX`. -/
def quoteByteChars (b : Nat) : List Char :=
  if (65 ≤ b ∧ b ≤ 90) ∨ (97 ≤ b ∧ b ≤ 122) ∨ (48 ≤ b ∧ b ≤ 57)
      ∨ b = 95 ∨ b = 46 ∨ b = 45 ∨ b = 126 then [Char.ofNat b]
  else if b = 32 then ['+']
  else ['%', hexDigit (b / 16), hexDigit (b % 16)]

/-- Python `urllib.parse.quote_plus`. -/
def quotePlus (s : String) : String :=
  String.mk ((s.toList.map (fun c => (utf8Bytes c.toNat).map quoteByteChars)).flatten.flatten)

/-- A `{title, payload}` button descriptor as built by the ask actions. -/
structure Button where
  title : String
  payload : String
deriving DecidableEq

/-- Result of the `count_filtered_recommendation_learnings` query
(`_retrieve_filter_result_count_for`): the JSON object
`{"param": ..., "values": {...}, "alternatives": {...}}`, with the objects'
key order kept as association lists. -/
structure CountResult where
  param : String
  values : List (String × Nat)
  alternatives : Option (List (String × Nat))
deriving DecidableEq

/-- `payload_field` of `_add_count_to_button_titles`:
`'/undecided' if count_field == 'egal' else '"{}"'.format(count_field)`. -/
def payloadField (k : String) : String :=
  if k = "egal" then "/undecided" else "\"" ++ k ++ "\""

/-- The `' ({})'.format(val)` string appended to a button title. -/
def countTag (v : Nat) : String := " (" ++ natToStr v ++ ")"

/-- `btn['title'] += ' ({})'.format(val)`. -/
def annotate (b : Button) (v : Nat) : Button :=
  { b with title := b.title ++ countTag v }

/-- One `values` entry of the first pass of `_add_count_to_button_titles`:
find the first button whose lower-cased payload contains `pf`; remove it when
the count is 0, otherwise annotate it (second component: how much `applied`
is incremented). -/
def pass1Entry (pf : String) (v : Nat) : List Button → List Button × Nat
  | [] => ([], 0)
  | b :: bs =>
    if strContains (pyLower b.payload) pf then
      if v = 0 then (bs, 0) else (annotate b v :: bs, 1)
    else
      let r := pass1Entry pf v bs
      (b :: r.1, r.2)

/-- The `values` loop of `_add_count_to_button_titles`. -/
def pass1 : List (String × Nat) → List Button → List Button × Nat
  | [], bs => (bs, 0)
  | e :: es, bs =>
    let r := pass1Entry (payloadField e.1) e.2 bs
    let r2 := pass1 es r.1
    (r2.1, r.2 + r2.2)

/-- One `alternatives` entry of `_add_count_to_button_titles`: annotate the
first button whose lower-cased payload contains the key (no quoting, no
removal, regardless of the count value). -/
def pass2Entry (k : String) (v : Nat) : List Button → List Button × Nat
  | [] => ([], 0)
  | b :: bs =>
    if strContains (pyLower b.payload) k then (annotate b v :: bs, 1)
    else
      let r := pass2Entry k v bs
      (b :: r.1, r.2)

/-- The `alternatives` loop of `_add_count_to_button_titles`. -/
def pass2 : List (String × Nat) → List Button → List Button
  | [], bs => bs
  | e :: es, bs => pass2 es (pass2Entry e.1 e.2 bs).1

/-- `_add_count_to_button_titles(count_result, buttons)`: first pass over
`values`, then — if fewer annotations were applied than the original number
of buttons and `alternatives` is present — a second pass over `alternatives`. -/
def add_count_to_button_titles (cr : CountResult) (buttons : List Button) : List Button :=
  let size := buttons.length
  let r := pass1 cr.values buttons
  if r.2 < size then
    match cr.alternatives with
    | some alts => pass2 alts r.1
    | none => r.1
  else r.1

/-- A user-facing message dispatched via `dispatcher.utter_message`.
Localized response texts live outside the action code, so a message is
identified by its response key together with its format arguments; the only
messages carrying buttons are the ask-action prompts. -/
inductive Msg where
  | prompt (text : String) (buttons : List Button)
  | noRecommendationsFound
  | foundRecommendations (n : Nat)
  | foundRecommendationsSingle (n : Nat)
  | foundCourseItem (title code : String)
  | foundCourseItemWithoutCode (title encoded : String)
  | foundMoreSingle (n : Nat)
  | foundMoreMultiple (n : Nat)
  | error401
  | error404
  | error500
  | errorUnknown (content : String)
  | noMoreRecommendations
  | additionalRecommendations (n : Nat)
  | additionalRecommendationsSingle (n : Nat)
  | additionalCourseItem (title code : String)
  | additionalCourseItemWithoutCode (title encoded : String)
  | additionalMoreSingle (n : Nat)
  | additionalMoreMultiple (n : Nat)
  | unsupportedLanguageSelection (lang : String)
  | interjectionLanguages
  | unavailableTopic
deriving DecidableEq

/-- A rasa conversation event returned by an action's `run`
(`UserUttered`, `SlotSet` on a string slot, `FollowupAction`). -/
inductive Event where
  | userUttered (payload : String)
  | slotSet (slot : String) (value : Option String)
  | followup (action : String)
deriving DecidableEq

/-- Static button catalog of `ActionAskLanguage.run`. -/
def languageButtons : List Button :=
  [⟨"language_option_german", "/inform\x7b\"language\":\"Deutsch\"\x7d"⟩,
   ⟨"language_option_english", "/inform\x7b\"language\":\"Englisch\"\x7d"⟩,
   ⟨"language_option_any", "/undecided"⟩]

/-- Static button catalog of `ActionAskTopic.run`. -/
def topicButtons : List Button :=
  [⟨"topic_option_introduction_ai", "/inform\x7b\"topic\":\"ki-einführung\"\x7d"⟩,
   ⟨"topic_option_specialized_ai", "/inform\x7b\"topic\":\"ki-vertiefung\"\x7d"⟩,
   ⟨"topic_option_professions_and_ai", "/inform\x7b\"topic\":\"ki-berufsfelder\"\x7d"⟩,
   ⟨"topic_option_society_and_ai", "/inform\x7b\"topic\":\"ki-gesellschaft\"\x7d"⟩,
   ⟨"topic_option_data_science", "/inform\x7b\"topic\":\"Data Science\"\x7d"⟩,
   ⟨"topic_option_machine_learning", "/inform\x7b\"topic\":\"Maschinelles Lernen\"\x7d"⟩,
   ⟨"topic_option_any", "/undecided"⟩]

/-- Static button catalog of `ActionAskLevel.run`. -/
def levelButtons : List Button :=
  [⟨"level_option_beginner", "/inform\x7b\"level\":\"Anfänger\"\x7d"⟩,
   ⟨"level_option_advanced", "/inform\x7b\"level\":\"Fortgeschritten\"\x7d"⟩,
   ⟨"level_option_expert", "/inform\x7b\"level\":\"Experte\"\x7d"⟩]

/-- Static button catalog of `ActionAskMaxDuration.run`. -/
def maxDurationButtons : List Button :=
  [⟨"duration_option_max_10h", "/inform\x7b\"max_duration\":\"10\"\x7d"⟩,
   ⟨"duration_option_max_50h", "/inform\x7b\"max_duration\":\"50\"\x7d"⟩,
   ⟨"duration_option_any", "/inform\x7b\"max_duration\":\"51\"\x7d"⟩]

/-- Static button catalog of `ActionAskCertificate.run`. -/
def certificateButtons : List Button :=
  [⟨"certificate_option_unqualified", "/inform\x7b\"certificate\":\"Teilnahmebescheinigung\"\x7d"⟩,
   ⟨"certificate_option_qualified", "/inform\x7b\"certificate\":\"Leistungsnachweis\"\x7d"⟩,
   ⟨"certificate_option_any", "/undecided"⟩]

/-- Parses `{"<key>":"<value>"}` (no escapes, as produced by the static
payload catalog), the shape consumed by `json.loads` in `ActionAskLevel.run`. -/
def parseSingleField (key : String) (s : String) : Option String :=
  match stripPre ("\x7b\"" ++ key ++ "\":\"").toList s.toList with
  | none => none
  | some rest =>
    match stripPre "\x7d\"".toList rest.reverse with
    | none => none
    | some midRev =>
      let mid := midRev.reverse
      if mid.contains '"' || mid.contains '\\' then none else some (String.mk mid)

/-- `json.loads(btn['payload'].replace("/inform", ''))[key]` of
`ActionAskLevel.run`, restricted to the single-field objects occurring in the
payload catalogs. -/
def extractPayloadValue (key : String) (payload : String) : Option String :=
  parseSingleField key (strReplace payload "/inform" "")

/-- The question controller of `ActionAskLanguage.run`, given the (possibly
failed) count-query response and the latest intent. A `none` count response
makes `_add_count_to_button_titles` subscript `None`, raising `TypeError`
before any message is uttered; this is the `.error` outcome. -/
def actionAskLanguageRun (countResponse : Option CountResult) (intent : String) :
    Except Unit (List Msg × List Event) :=
  match countResponse with
  | none => .error ()
  | some cr =>
    let buttons := add_count_to_button_titles cr languageButtons
    let text := if intent = "change_language_slot" then "confirm_and_show_change_language"
                else "ask_select_language"
    .ok ([.prompt text buttons], [])

/-- The question controller of `ActionAskTopic.run`. -/
def actionAskTopicRun (countResponse : Option CountResult) (intent : String) :
    Except Unit (List Msg × List Event) :=
  match countResponse with
  | none => .error ()
  | some cr =>
    let buttons := add_count_to_button_titles cr topicButtons
    let text := if intent = "change_topic_slot" then "confirm_and_show_change_topic"
                else "ask_select_topic"
    .ok ([.prompt text buttons], [])

/-- The `len(buttons) <= 1` decision of `ActionAskLevel.run` on the pruned
button list: zero buttons left applies `"egal"`, one button left decodes the
payload value and applies it, both enqueue
`action_get_learning_recommendation`; two or more buttons prompt. -/
def levelDecision (buttons : List Button) (intent : String) :
    Except Unit (List Msg × List Event) :=
  match buttons with
  | [] =>
    .ok ([], [.userUttered "/undecided", .slotSet "level" (some "egal"),
              .followup "action_get_learning_recommendation"])
  | [btn] =>
    match extractPayloadValue "level" btn.payload with
    | some v =>
      .ok ([], [.userUttered btn.payload, .slotSet "level" (some v),
                .followup "action_get_learning_recommendation"])
    | none => .error ()
  | bs =>
    let text := if intent = "change_level_slot" then "confirm_and_show_change_level"
                else "ask_select_level"
    .ok ([.prompt text bs], [])

/-- The question controller of `ActionAskLevel.run`, including its auto-apply
shortcut (`levelDecision`). -/
def actionAskLevelRun (countResponse : Option CountResult) (intent : String) :
    Except Unit (List Msg × List Event) :=
  match countResponse with
  | none => .error ()
  | some cr => levelDecision (add_count_to_button_titles cr levelButtons) intent

/-- The question controller of `ActionAskMaxDuration.run`. -/
def actionAskMaxDurationRun (countResponse : Option CountResult) (intent : String) :
    Except Unit (List Msg × List Event) :=
  match countResponse with
  | none => .error ()
  | some cr =>
    let buttons := add_count_to_button_titles cr maxDurationButtons
    let text := if intent = "change_max_duration_slot" then "confirm_and_show_change_duration"
                else "ask_select_duration"
    .ok ([.prompt text buttons], [])

/-- The question controller of `ActionAskCertificate.run`. -/
def actionAskCertificateRun (countResponse : Option CountResult) (intent : String) :
    Except Unit (List Msg × List Event) :=
  match countResponse with
  | none => .error ()
  | some cr =>
    let buttons := add_count_to_button_titles cr certificateButtons
    let text := if intent = "change_certificate_slot" then "confirm_and_show_change_certificate"
                else "ask_select_certificate"
    .ok ([.prompt text buttons], [])

/-- One entry of the user's enrolled-course list from the profile. -/
structure EnrolledCourse where
  course_code : String
deriving DecidableEq

/-- The five filter slots plus the enrollments slot read by
`_create_filter_request_params`. -/
structure FilterSlots where
  language : Option String
  topic : Option String
  level : Option String
  max_duration : Option String
  certificate : Option String
  enrollments : Option (List EnrolledCourse)
deriving DecidableEq

/-- The assembled request-parameter set. `max_duration` is the only slot not
run through `str(...)` by the source, hence its different type. -/
structure FilterParams where
  language : String
  topic : String
  level : String
  max_duration : Option String
  certificate : String
  enrollments : Option (List String)
deriving DecidableEq

/-- Python `str(v)` on an optional string slot value: `str(None) = "None"`. -/
def pyStr : Option String → String
  | none => "None"
  | some s => s

/-- `_create_filter_request_params(tracker)`. -/
def create_filter_request_params (t : FilterSlots) : FilterParams :=
  { language := pyStr t.language
    topic := pyStr t.topic
    level := pyStr t.level
    max_duration := t.max_duration
    certificate := pyStr t.certificate
    enrollments :=
      match t.enrollments with
      | some l => some (l.map EnrolledCourse.course_code)
      | none => none }

/-- `ValidateRecommenderForm.language_db()`. -/
def language_db : List String := ["deutsch", "englisch", "egal"]

/-- `ValidateRecommenderForm.language_no_support_db()`. -/
def language_no_support_db : List String :=
  ["spanisch", "französisch", "robotisch", "russisch", "slowakisch", "katalanisch",
   "tschechisch", "mandarin", "hindi", "niederländisch", "schwedisch", "holländisch"]

/-- `ValidateRecommenderForm.topic_db()`. -/
def topic_db : List String :=
  ["ki-einführung", "ki-vertiefung", "ki-berufsfelder", "ki-gesellschaft",
   "data science", "maschinelles lernen", "egal"]

/-- `ValidateRecommenderForm.certificate_db()`. -/
def certificate_db : List String := ["teilnahmebescheinigung", "leistungsnachweis", "egal"]

/-- `ValidateRecommenderForm.max_duration_db()`. -/
def max_duration_db : List String := ["0", "10", "50", "51"]

/-- `ValidateRecommenderForm.level_db()`. -/
def level_db : List String := ["anfänger", "fortgeschritten", "experte"]

/-- `ValidateRecommenderForm.validate_language`: returns the stored slot value
and the dispatched messages. An absent or empty raw value is falsy in Python
and skips both membership tests. -/
def validate_language (v : Option String) : Option String × List Msg :=
  match v with
  | some s =>
    if s ≠ "" then
      if pyLower s ∈ language_db then (some (pyLower s), [])
      else if pyLower s ∈ language_no_support_db then
        (none, [.unsupportedLanguageSelection (pyCapitalize s)])
      else (none, [.interjectionLanguages])
    else (none, [.interjectionLanguages])
  | none => (none, [.interjectionLanguages])

/-- `ValidateRecommenderForm.validate_topic`. -/
def validate_topic (v : Option String) : Option String × List Msg :=
  match v with
  | some s =>
    if s ≠ "" ∧ pyLower s ∈ topic_db then (some (pyLower s), [])
    else (none, [.unavailableTopic])
  | none => (none, [.unavailableTopic])

/-- `ValidateRecommenderForm.validate_certificate`. -/
def validate_certificate (v : Option String) : Option String × List Msg :=
  match v with
  | some s =>
    if s ≠ "" ∧ pyLower s ∈ certificate_db then (some (pyLower s), [])
    else (none, [])
  | none => (none, [])

/-- `ValidateRecommenderForm.validate_max_duration`. -/
def validate_max_duration (v : Option String) : Option String × List Msg :=
  match v with
  | some s =>
    if s ≠ "" ∧ pyLower s ∈ max_duration_db then (some (pyLower s), [])
    else (none, [])
  | none => (none, [])

/-- `ValidateRecommenderForm.validate_level`. -/
def validate_level (v : Option String) : Option String × List Msg :=
  match v with
  | some s =>
    if s ≠ "" ∧ pyLower s ∈ level_db then (some (pyLower s), [])
    else (none, [])
  | none => (none, [])

/-- One course entry of the recommendation response. -/
structure Course where
  name : String
  course_code : String
deriving DecidableEq

/-- The per-course message of `ActionGetLearningRecommendation.run`: the
with-code template when `course_code` is truthy (non-empty), otherwise the
fallback template with the URL-encoded title. -/
def foundCourseMsg (c : Course) : Msg :=
  if c.course_code ≠ "" then .foundCourseItem c.name c.course_code
  else .foundCourseItemWithoutCode c.name (quotePlus c.name)

/-- The per-course message of `ActionAdditionalLearningRecommendation.run`. -/
def additionalCourseMsg (c : Course) : Msg :=
  if c.course_code ≠ "" then .additionalCourseItem c.name c.course_code
  else .additionalCourseItemWithoutCode c.name (quotePlus c.name)

/-- `ActionGetLearningRecommendation.run`, given the recommendation query's
HTTP status, its body text (used by the unknown-error message) and — for
status 200 — the parsed course array. Returns the dispatched messages and the
value stored in the `recommendations` slot. -/
def action_get_learning_recommendation (status : Nat) (content : String)
    (parsed : List Course) : List Msg × Option (List Course) :=
  if status = 200 then
    let response := parsed
    if response.length < 1 then ([.noRecommendationsFound], some response)
    else
      let size := response.length
      let limit := min size 3
      let header := if size = 1 then Msg.foundRecommendationsSingle size
                    else Msg.foundRecommendations size
      let items := (response.take limit).map foundCourseMsg
      let more :=
        if limit < size then
          [if size - limit = 1 then Msg.foundMoreSingle (size - limit)
           else Msg.foundMoreMultiple (size - limit)]
        else []
      (header :: items ++ more, some response)
  else if status = 401 then ([.error401], none)
  else if status = 404 then ([.error404], none)
  else if status = 500 then ([.error500], none)
  else ([.errorUnknown content], none)

/-- `ActionAdditionalLearningRecommendation.run`, given the stored
`recommendations` slot. Returns the dispatched messages and the new slot
value. -/
def action_additional_learning_recommendation (recommendations : Option (List Course)) :
    List Msg × Option (List Course) :=
  match recommendations with
  | none => ([.noMoreRecommendations], none)
  | some l =>
    if l.length ≤ 3 then ([.noMoreRecommendations], some l)
    else
      let r := l.drop 3
      let size := r.length
      let limit := min size 3
      let header := if size = 1 then Msg.additionalRecommendationsSingle size
                    else Msg.additionalRecommendations size
      let items := (r.take limit).map additionalCourseMsg
      let more :=
        if limit < size then
          [if size - limit = 1 then Msg.additionalMoreSingle (size - limit)
           else Msg.additionalMoreMultiple (size - limit)]
        else []
      (header :: items ++ more, some r)

/-- C1, counterexample: the language question controller has no auto-apply
shortcut. With a count result that prunes the candidate list to exactly one
option, `ActionAskLanguage.run` still emits the question prompt and returns no
events — it neither applies the remaining option's value to the slot nor
enqueues the recommendation-retrieval follow-up, contrary to the claim that
every slot question controller short-circuits. -/
theorem C1_counterexample :
    add_count_to_button_titles
        ⟨"language", [("deutsch", 0), ("egal", 0), ("englisch", 5)], none⟩ languageButtons =
      [⟨"language_option_english (5)", "/inform\x7b\"language\":\"Englisch\"\x7d"⟩] ∧
    actionAskLanguageRun
        (some ⟨"language", [("deutsch", 0), ("egal", 0), ("englisch", 5)], none⟩) "greet" =
      .ok ([.prompt "ask_select_language"
              [⟨"language_option_english (5)", "/inform\x7b\"language\":\"Englisch\"\x7d"⟩]], []) :=
  ⟨by decide, rfl⟩

/-- C1, amended: only the level question controller (`ActionAskLevel.run`)
implements the auto-apply shortcut — zero options left applies `"egal"`, one
option left decodes and applies that option's structured-command value, and
both enqueue `action_get_learning_recommendation` without prompting; the
language, topic, max_duration and certificate question controllers always
emit the question prompt with the pruned list and return no events, however
few options remain. -/
theorem C1_level_only_auto_apply (cr : CountResult) (intent : String) :
    (add_count_to_button_titles cr levelButtons = [] →
      actionAskLevelRun (some cr) intent =
        .ok ([], [.userUttered "/undecided", .slotSet "level" (some "egal"),
                  .followup "action_get_learning_recommendation"])) ∧
    (∀ b v, add_count_to_button_titles cr levelButtons = [b] →
      extractPayloadValue "level" b.payload = some v →
      actionAskLevelRun (some cr) intent =
        .ok ([], [.userUttered b.payload, .slotSet "level" (some v),
                  .followup "action_get_learning_recommendation"])) ∧
    actionAskLanguageRun (some cr) intent =
      .ok ([.prompt (if intent = "change_language_slot" then "confirm_and_show_change_language"
                     else "ask_select_language")
              (add_count_to_button_titles cr languageButtons)], []) ∧
    actionAskTopicRun (some cr) intent =
      .ok ([.prompt (if intent = "change_topic_slot" then "confirm_and_show_change_topic"
                     else "ask_select_topic")
              (add_count_to_button_titles cr topicButtons)], []) ∧
    actionAskMaxDurationRun (some cr) intent =
      .ok ([.prompt (if intent = "change_max_duration_slot" then "confirm_and_show_change_duration"
                     else "ask_select_duration")
              (add_count_to_button_titles cr maxDurationButtons)], []) ∧
    actionAskCertificateRun (some cr) intent =
      .ok ([.prompt (if intent = "change_certificate_slot" then "confirm_and_show_change_certificate"
                     else "ask_select_certificate")
              (add_count_to_button_titles cr certificateButtons)], []) := by
  refine ⟨?_, ?_, rfl, rfl, rfl, rfl⟩
  · intro h
    show levelDecision (add_count_to_button_titles cr levelButtons) intent = _
    rw [h]
    rfl
  · intro b v h hv
    show levelDecision (add_count_to_button_titles cr levelButtons) intent = _
    rw [h]
    simp only [levelDecision]
    rw [hv]

/-- C1, witness for the amended claim: a count result that removes the
advanced and expert options and keeps the beginner option makes the level
controller auto-apply `"Anfänger"` and enqueue the follow-up action. -/
theorem C1_witness :
    actionAskLevelRun
        (some ⟨"level", [("fortgeschritten", 0), ("experte", 0), ("anfänger", 3)], none⟩)
        "greet" =
      .ok ([], [.userUttered "/inform\x7b\"level\":\"Anfänger\"\x7d",
                .slotSet "level" (some "Anfänger"),
                .followup "action_get_learning_recommendation"]) :=
  (C1_level_only_auto_apply
      ⟨"level", [("fortgeschritten", 0), ("experte", 0), ("anfänger", 3)], none⟩ "greet").2.1
    ⟨"level_option_beginner (3)", "/inform\x7b\"level\":\"Anfänger\"\x7d"⟩ "Anfänger"
    (by decide) (by decide)

/-- C2: when the count query fails, `_retrieve_filter_result_count_for`
returns `None`, and every slot question controller passes that `None`
straight into `_add_count_to_button_titles`, whose first statement subscripts
it (`count_result['values']`) and raises `TypeError` — the action aborts
before any prompt is uttered. The claim (and the spec's fail-open design) is
the evident intent: the helper deliberately returns `None` on failure so the
caller can skip pruning; the missing guard in the callers is a slip, so this
is recorded as a code bug. -/
theorem C2_count_failure_crashes (intent : String) :
    actionAskLanguageRun none intent = .error () ∧
    actionAskTopicRun none intent = .error () ∧
    actionAskLevelRun none intent = .error () ∧
    actionAskMaxDurationRun none intent = .error () ∧
    actionAskCertificateRun none intent = .error () :=
  ⟨rfl, rfl, rfl, rfl, rfl⟩

/-- C3: pagination over 7 retrieved recommendations. The first turn shows
items 1–3 and reports 4 more; the first "show more" shows items 4–6 and
reports 1 more; the second "show more" shows item 7 and reports none
remaining; a further "show more" emits the no-more-recommendations message
and stores the recommendations slot back unchanged. -/
theorem C3_pagination (c1 c2 c3 c4 c5 c6 c7 : Course) (content : String) :
    action_get_learning_recommendation 200 content [c1, c2, c3, c4, c5, c6, c7] =
      ([.foundRecommendations 7, foundCourseMsg c1, foundCourseMsg c2, foundCourseMsg c3,
        .foundMoreMultiple 4], some [c1, c2, c3, c4, c5, c6, c7]) ∧
    action_additional_learning_recommendation (some [c1, c2, c3, c4, c5, c6, c7]) =
      ([.additionalRecommendations 4, additionalCourseMsg c4, additionalCourseMsg c5,
        additionalCourseMsg c6, .additionalMoreSingle 1], some [c4, c5, c6, c7]) ∧
    action_additional_learning_recommendation (some [c4, c5, c6, c7]) =
      ([.additionalRecommendationsSingle 1, additionalCourseMsg c7], some [c7]) ∧
    action_additional_learning_recommendation (some [c7]) =
      ([.noMoreRecommendations], some [c7]) :=
  ⟨rfl, rfl, rfl, rfl⟩

/-- C6, counterexample: the topic validator does *not* clear silently — on an
invalid raw value it dispatches the `utter_unavailable_topic` message, so the
language validator is not the only one producing rejection messages. -/
theorem C6_counterexample :
    validate_topic (some "Quantenphysik") = (none, [.unavailableTopic]) ∧
    ([Msg.unavailableTopic] : List Msg) ≠ [] := by decide

/-- C6, amended: the certificate, max_duration and level validators clear an
invalid raw value silently (no message); the topic validator clears it and
emits the generic unavailable-topic message; only the language validator
produces the detailed rejection messages. -/
theorem C6_silent_clear (s : String) :
    (pyLower s ∉ certificate_db → validate_certificate (some s) = (none, [])) ∧
    (pyLower s ∉ max_duration_db → validate_max_duration (some s) = (none, [])) ∧
    (pyLower s ∉ level_db → validate_level (some s) = (none, [])) ∧
    (pyLower s ∉ topic_db → validate_topic (some s) = (none, [.unavailableTopic])) ∧
    validate_certificate none = (none, []) ∧
    validate_max_duration none = (none, []) ∧
    validate_level none = (none, []) := by
  refine ⟨fun h => ?_, fun h => ?_, fun h => ?_, fun h => ?_, rfl, rfl, rfl⟩
  · exact if_neg (fun hc => h hc.2)
  · exact if_neg (fun hc => h hc.2)
  · exact if_neg (fun hc => h hc.2)
  · exact if_neg (fun hc => h hc.2)

/-- C6, witness: the raw value `"Quark"` is invalid for every slot; the
certificate, duration and level validators clear it with no message, the
topic validator adds the generic message. -/
theorem C6_witness :
    validate_certificate (some "Quark") = (none, []) ∧
    validate_max_duration (some "Quark") = (none, []) ∧
    validate_level (some "Quark") = (none, []) ∧
    validate_topic (some "Quark") = (none, [.unavailableTopic]) := by
  obtain ⟨h1, h2, h3, h4, _, _, _⟩ := C6_silent_clear "Quark"
  exact ⟨h1 (by decide), h2 (by decide), h3 (by decide), h4 (by decide)⟩

/-- C7, counterexample: with every slot absent, `_create_filter_request_params`
passes `max_duration` through as the absent value itself (`None`), not as its
textual `"None"` representation — only language, topic, level and certificate
are wrapped in `str(...)`. -/
theorem C7_counterexample :
    create_filter_request_params ⟨none, none, none, none, none, none⟩ =
      { language := "None", topic := "None", level := "None", max_duration := none,
        certificate := "None", enrollments := none } := rfl

/-- C7, amended: the assembled parameter set always carries all six
parameters; an absent language, topic, level or certificate slot is passed as
the textual `"None"` string, while an absent max_duration slot is passed
through unchanged as the absent value (it is the one slot not wrapped in
`str(...)`). -/
theorem C7_params_always_present (t : FilterSlots) :
    (t.language = none → (create_filter_request_params t).language = "None") ∧
    (t.topic = none → (create_filter_request_params t).topic = "None") ∧
    (t.level = none → (create_filter_request_params t).level = "None") ∧
    (t.certificate = none → (create_filter_request_params t).certificate = "None") ∧
    (create_filter_request_params t).max_duration = t.max_duration := by
  refine ⟨fun h => ?_, fun h => ?_, fun h => ?_, fun h => ?_, rfl⟩ <;>
    simp [create_filter_request_params, h, pyStr]

/-- C7, witness for the amended claim at a concrete filter state. -/
theorem C7_witness :
    (create_filter_request_params ⟨none, some "ki-einführung", none, none, none, none⟩).language
        = "None" ∧
    (create_filter_request_params ⟨none, some "ki-einführung", none, none, none, none⟩).max_duration
        = none := by
  obtain ⟨h1, _, _, _, h5⟩ :=
    C7_params_always_present ⟨none, some "ki-einführung", none, none, none, none⟩
  exact ⟨h1 rfl, h5⟩

/-- C8: language validation. `"Englisch"` is lower-cased and accepted;
`"Spanisch"` is in the known-unsupported list and rejected with the
unsupported-language message naming `"Spanisch"`; `"Klingonisch"` is unknown
and rejected with the generic clarification message. -/
theorem C8_language_validation :
    validate_language (some "Englisch") = (some "englisch", []) ∧
    validate_language (some "Spanisch") = (none, [.unsupportedLanguageSelection "Spanisch"]) ∧
    validate_language (some "Klingonisch") = (none, [.interjectionLanguages]) := by decide

/-- C9: recommendation retrieval classifies the HTTP outcome exhaustively and
distinctly. Status 200 with an empty array emits only the
no-recommendations-found message (no buttons — only ask-action prompts carry
buttons); 401, 404 and 500 each emit their own message; every other non-200
status emits the unknown-error message carrying the raw body text. The five
messages are pairwise distinct. -/
theorem C9_outcome_classification (content : String) (courses : List Course) (status : Nat) :
    action_get_learning_recommendation 200 content [] = ([.noRecommendationsFound], some []) ∧
    action_get_learning_recommendation 401 content courses = ([.error401], none) ∧
    action_get_learning_recommendation 404 content courses = ([.error404], none) ∧
    action_get_learning_recommendation 500 content courses = ([.error500], none) ∧
    (status ≠ 200 → status ≠ 401 → status ≠ 404 → status ≠ 500 →
      action_get_learning_recommendation status content courses =
        ([.errorUnknown content], none)) ∧
    ([Msg.noRecommendationsFound, Msg.error401, Msg.error404, Msg.error500,
      Msg.errorUnknown content].Pairwise (· ≠ ·)) := by
  refine ⟨rfl, rfl, rfl, rfl, fun h1 h2 h3 h4 => ?_, ?_⟩
  · simp [action_get_learning_recommendation, h1, h2, h3, h4]
  · simp [List.pairwise_cons]

/-- C9, witness: the generic branch at the concrete unclassified status 402. -/
theorem C9_witness :
    action_get_learning_recommendation 402 "boom" [] = ([.errorUnknown "boom"], none) :=
  (C9_outcome_classification "boom" [] 402).2.2.2.2.1
    (by decide) (by decide) (by decide) (by decide)

/-- C10: every non-200 retrieval outcome stores `None` into the
`recommendations` slot (erasing any previously stored batch), and a
subsequent "show more" on the absent value reports no more recommendations. -/
theorem C10_failure_clears_recommendations (status : Nat) (content : String)
    (courses : List Course) (h : status ≠ 200) :
    (action_get_learning_recommendation status content courses).2 = none ∧
    action_additional_learning_recommendation none = ([.noMoreRecommendations], none) := by
  refine ⟨?_, rfl⟩
  unfold action_get_learning_recommendation
  rw [if_neg h]
  split
  · rfl
  split
  · rfl
  split
  · rfl
  · rfl

/-- C10, witness at status 500. -/
theorem C10_witness :
    (action_get_learning_recommendation 500 "err" []).2 = none ∧
    action_additional_learning_recommendation none = ([.noMoreRecommendations], none) :=
  C10_failure_clears_recommendations 500 "err" [] (by decide)

/-- C4, counterexample: a candidate can be annotated twice. With
`values = {"anfänger": 3}` and `alternatives = {"anfänger": 7}` on the level
catalog, the first pass annotates the beginner option, only one of three
candidates is matched, so the alternatives pass runs — and it does not
restrict itself to unmatched candidates: it annotates the beginner option a
second time. -/
theorem C4_counterexample :
    add_count_to_button_titles
        ⟨"level", [("anfänger", 3)], some [("anfänger", 7)]⟩ levelButtons =
      [⟨"level_option_beginner (3) (7)", "/inform\x7b\"level\":\"Anfänger\"\x7d"⟩,
       ⟨"level_option_advanced", "/inform\x7b\"level\":\"Fortgeschritten\"\x7d"⟩,
       ⟨"level_option_expert", "/inform\x7b\"level\":\"Experte\"\x7d"⟩] ∧
    strContains "level_option_beginner (3) (7)" (countTag 3) = true ∧
    strContains "level_option_beginner (3) (7)" (countTag 7) = true := by decide

/-- C5, counterexample: two overlapping `values` keys can defeat the
per-entry reading of the claim. On a single candidate with payload
`/inform{"topic":"a"}`, the entry `("a", 5)` matches it (count &gt; 0), yet the
candidate is absent from the output because the second entry
`('topic":"a', 0)` also matches it and removes it. -/
theorem C5_counterexample :
    strContains (pyLower "/inform\x7b\"topic\":\"a\"\x7d") (payloadField "a") = true ∧
    (5 : Nat) ≠ 0 ∧
    add_count_to_button_titles ⟨"topic", [("a", 5), ("topic\":\"a", 0)], none⟩
        [⟨"A", "/inform\x7b\"topic\":\"a\"\x7d"⟩] = [] := by decide

theorem listStartsWith_nil_true (l : List Char) : listStartsWith [] l = true := by
  cases l <;> rfl

theorem listStartsWith_of_nil {n : List Char} (h : listStartsWith n [] = true) : n = [] := by
  cases n with
  | nil => rfl
  | cons a as => simp [listStartsWith] at h

theorem listStartsWith_append (n l m : List Char) (h : listStartsWith n l = true) :
    listStartsWith n (l ++ m) = true := by
  induction n generalizing l with
  | nil => exact listStartsWith_nil_true _
  | cons a as ih =>
    cases l with
    | nil => simp [listStartsWith] at h
    | cons b bs =>
      simp only [listStartsWith, Bool.and_eq_true, decide_eq_true_eq] at h ⊢
      exact ⟨h.1, ih bs h.2⟩

theorem listContainsSub_nil_needle (l : List Char) : listContainsSub [] l = true := by
  induction l with
  | nil => rfl
  | cons b bs ih => simp [listContainsSub, listStartsWith, ih]

theorem listContainsSub_append_right (n l m : List Char) (h : listContainsSub n l = true) :
    listContainsSub n (l ++ m) = true := by
  induction l with
  | nil =>
    have hn : n = [] := listStartsWith_of_nil h
    subst hn
    exact listContainsSub_nil_needle m
  | cons b bs ih =>
    simp only [listContainsSub, Bool.or_eq_true] at h
    rcases h with h | h
    · simp only [List.cons_append, listContainsSub, Bool.or_eq_true]
      exact Or.inl (listStartsWith_append n (b :: bs) m h)
    · simp only [List.cons_append, listContainsSub, Bool.or_eq_true]
      exact Or.inr (ih h)

theorem listStartsWith_refl (l : List Char) : listStartsWith l l = true := by
  induction l with
  | nil => rfl
  | cons a as ih => simp [listStartsWith, ih]

theorem listContainsSub_append_self (n m : List Char) : listContainsSub n (m ++ n) = true := by
  induction m with
  | nil =>
    cases n with
    | nil => rfl
    | cons a as =>
      simp only [List.nil_append, listContainsSub, Bool.or_eq_true]
      exact Or.inl (listStartsWith_refl _)
  | cons b bs ih =>
    simp only [List.cons_append, listContainsSub, Bool.or_eq_true]
    exact Or.inr ih

theorem str_toList_append (a b : String) : (a ++ b).toList = a.toList ++ b.toList := by
  cases a
  cases b
  rfl

theorem strContains_append_right (a t s : String) (h : strContains a s = true) :
    strContains (a ++ t) s = true := by
  unfold strContains at h ⊢
  rw [str_toList_append]
  exact listContainsSub_append_right _ _ _ h

theorem strContains_append_self (a s : String) : strContains (a ++ s) s = true := by
  unfold strContains
  rw [str_toList_append]
  exact listContainsSub_append_self _ _

theorem annotate_payload (b : Button) (v : Nat) : (annotate b v).payload = b.payload := rfl

theorem annotate_title_contains (b : Button) (v : Nat) :
    strContains (annotate b v).title (countTag v) = true := strContains_append_self _ _

theorem annotate_title_contains_of (b : Button) (v : Nat) (s : String)
    (h : strContains b.title s = true) : strContains (annotate b v).title s = true :=
  strContains_append_right _ _ _ h

theorem pass1Entry_payload_sublist (pf : String) (v : Nat) (bs : List Button) :
    ((pass1Entry pf v bs).1.map Button.payload).Sublist (bs.map Button.payload) := by
  induction bs with
  | nil => simp [pass1Entry]
  | cons b bs ih =>
    simp only [pass1Entry]
    split
    · split
      · exact List.sublist_cons_self _ _
      · exact List.Sublist.refl _
    · simpa using List.Sublist.cons₂ b.payload ih

theorem pass1_payload_sublist (es : List (String × Nat)) (bs : List Button) :
    ((pass1 es bs).1.map Button.payload).Sublist (bs.map Button.payload) := by
  induction es generalizing bs with
  | nil => simp [pass1]
  | cons e es ih =>
    simp only [pass1]
    exact (ih _).trans (pass1Entry_payload_sublist _ _ _)

theorem pass2Entry_payload_map (k : String) (v : Nat) (bs : List Button) :
    (pass2Entry k v bs).1.map Button.payload = bs.map Button.payload := by
  induction bs with
  | nil => rfl
  | cons b bs ih =>
    simp only [pass2Entry]
    split
    · rfl
    · simp [ih]

theorem pass2_payload_map (es : List (String × Nat)) (bs : List Button) :
    (pass2 es bs).map Button.payload = bs.map Button.payload := by
  induction es generalizing bs with
  | nil => rfl
  | cons e es ih =>
    simp only [pass2]
    rw [ih, pass2Entry_payload_map]

/-- C4, amended: pruning never adds options (`|pruned| ≤ |candidates|`); the
at-most-once-annotation half of the original claim fails, because the
alternate-name pass matches against all remaining candidates rather than only
those left unmatched by the primary pass (see the counterexample). -/
theorem C4_pruning_never_adds (cr : CountResult) (buttons : List Button) :
    (add_count_to_button_titles cr buttons).length ≤ buttons.length := by
  have h1 : (pass1 cr.values buttons).1.length ≤ buttons.length := by
    have h := (pass1_payload_sublist cr.values buttons).length_le
    simpa using h
  simp only [add_count_to_button_titles]
  split
  · split
    · rename_i alts _
      have h2 := congrArg List.length (pass2_payload_map alts (pass1 cr.values buttons).1)
      simp only [List.length_map] at h2
      rw [h2]
      exact h1
    · exact h1
  · exact h1

theorem pass1Entry_mem_of_not_match {pf : String} {v : Nat} {b : Button} {bs : List Button}
    (hb : b ∈ bs) (hm : strContains (pyLower b.payload) pf = false) :
    b ∈ (pass1Entry pf v bs).1 := by
  induction bs with
  | nil => cases hb
  | cons hd tl ih =>
    simp only [pass1Entry]
    rcases List.mem_cons.mp hb with rfl | hmem
    · rw [if_neg (by simp [hm])]
      exact List.mem_cons_self _ _
    · split
      · split
        · exact hmem
        · exact List.mem_cons_of_mem _ hmem
      · exact List.mem_cons_of_mem _ (ih hmem)

theorem pass1_mem_of_not_match {es : List (String × Nat)} {bs : List Button} {b : Button}
    (hb : b ∈ bs)
    (h : ∀ e ∈ es, strContains (pyLower b.payload) (payloadField e.1) = false) :
    b ∈ (pass1 es bs).1 := by
  induction es generalizing bs with
  | nil => exact hb
  | cons e es ih =>
    simp only [pass1]
    exact ih (pass1Entry_mem_of_not_match hb (h e (List.mem_cons_self _ _)))
      (fun e' he' => h e' (List.mem_cons_of_mem _ he'))

theorem pass1Entry_zero_not_mem {pf : String} {bs : List Button} {p : String}
    (hnd : (bs.map Button.payload).Nodup)
    (hall : ∀ b' ∈ bs, strContains (pyLower b'.payload) pf = true → b'.payload = p)
    (hex : ∃ b ∈ bs, b.payload = p ∧ strContains (pyLower b.payload) pf = true) :
    p ∉ (pass1Entry pf 0 bs).1.map Button.payload := by
  induction bs with
  | nil =>
    rcases hex with ⟨b, hb, _⟩
    cases hb
  | cons hd tl ih =>
    simp only [List.map_cons, List.nodup_cons] at hnd
    obtain ⟨hnotin, hndtl⟩ := hnd
    simp only [pass1Entry]
    cases hc : strContains (pyLower hd.payload) pf
    · rw [if_neg (by simp [hc])]
      rcases hex with ⟨b, hb, hp, hm⟩
      rcases List.mem_cons.mp hb with rfl | hmem
      · rw [hm] at hc
        cases hc
      · have hhd : hd.payload ≠ p := by
          intro hcontra
          apply hnotin
          rw [hcontra]
          exact List.mem_map.mpr ⟨b, hmem, hp⟩
        simp only [List.map_cons, List.mem_cons]
        rintro (h | h)
        · exact hhd h.symm
        · exact ih hndtl (fun b' hb' hm' => hall b' (List.mem_cons_of_mem _ hb') hm')
            ⟨b, hmem, hp, hm⟩ h
    · rw [if_pos (by simp [hc])]
      rw [if_pos (by trivial)]
      have hhd : hd.payload = p := hall hd (List.mem_cons_self _ _) hc
      intro hcontra
      apply hnotin
      rw [hhd]
      exact hcontra

theorem pass1Entry_pos_annotate {pf : String} {v : Nat} {bs : List Button} {p : String}
    {b : Button} (hv : v ≠ 0)
    (hnd : (bs.map Button.payload).Nodup)
    (hall : ∀ b' ∈ bs, strContains (pyLower b'.payload) pf = true → b'.payload = p)
    (hb : b ∈ bs) (hp : b.payload = p) (hm : strContains (pyLower b.payload) pf = true) :
    annotate b v ∈ (pass1Entry pf v bs).1 := by
  induction bs with
  | nil => cases hb
  | cons hd tl ih =>
    simp only [List.map_cons, List.nodup_cons] at hnd
    obtain ⟨hnotin, hndtl⟩ := hnd
    simp only [pass1Entry]
    cases hc : strContains (pyLower hd.payload) pf
    · rw [if_neg (by simp [hc])]
      rcases List.mem_cons.mp hb with rfl | hmem
      · rw [hm] at hc
        cases hc
      · exact List.mem_cons_of_mem _
          (ih hndtl (fun b' hb' hm' => hall b' (List.mem_cons_of_mem _ hb') hm') hmem)
    · rw [if_pos (by simp [hc]), if_neg hv]
      have hhd : hd.payload = p := hall hd (List.mem_cons_self _ _) hc
      rcases List.mem_cons.mp hb with rfl | hmem
      · exact List.mem_cons_self _ _
      · exfalso
        apply hnotin
        rw [hhd]
        exact List.mem_map.mpr ⟨b, hmem, hp⟩

theorem pass1_zero_main (pre : List (String × Nat)) (k : String) (post : List (String × Nat)) :
    ∀ (bs : List Button) (p : String),
    (bs.map Button.payload).Nodup →
    (∀ b' ∈ bs, strContains (pyLower b'.payload) (payloadField k) = true → b'.payload = p) →
    (∀ e ∈ pre, strContains (pyLower p) (payloadField e.1) = false) →
    (∃ b ∈ bs, b.payload = p ∧ strContains (pyLower b.payload) (payloadField k) = true) →
    p ∉ (pass1 (pre ++ (k, 0) :: post) bs).1.map Button.payload := by
  induction pre with
  | nil =>
    intro bs p hnd hall _ hex
    simp only [List.nil_append, pass1]
    intro hcontra
    exact pass1Entry_zero_not_mem hnd hall hex
      ((pass1_payload_sublist post _).subset hcontra)
  | cons e pre ih =>
    intro bs p hnd hall hpre hex
    simp only [List.cons_append, pass1]
    apply ih (pass1Entry (payloadField e.1) e.2 bs).1 p
    · exact (pass1Entry_payload_sublist _ _ _).nodup hnd
    · intro b' hb' hmatch
      have hmm : b'.payload ∈ bs.map Button.payload :=
        (pass1Entry_payload_sublist _ _ _).subset (List.mem_map.mpr ⟨b', hb', rfl⟩)
      rcases List.mem_map.mp hmm with ⟨b'', hb'', hpb⟩
      rw [← hpb]
      apply hall b'' hb''
      rw [hpb]
      exact hmatch
    · exact fun e' he' => hpre e' (List.mem_cons_of_mem _ he')
    · rcases hex with ⟨b, hb, hp, hm⟩
      refine ⟨b, ?_, hp, hm⟩
      apply pass1Entry_mem_of_not_match hb
      rw [hp]
      exact hpre e (List.mem_cons_self _ _)

theorem pass1_pos_main (pre : List (String × Nat)) (k : String) (v : Nat)
    (post : List (String × Nat)) :
    ∀ (bs : List Button) (p : String) (b : Button),
    v ≠ 0 →
    (bs.map Button.payload).Nodup →
    (∀ b' ∈ bs, strContains (pyLower b'.payload) (payloadField k) = true → b'.payload = p) →
    (∀ e ∈ pre, strContains (pyLower p) (payloadField e.1) = false) →
    (∀ e ∈ post, strContains (pyLower p) (payloadField e.1) = false) →
    b ∈ bs → b.payload = p → strContains (pyLower b.payload) (payloadField k) = true →
    annotate b v ∈ (pass1 (pre ++ (k, v) :: post) bs).1 := by
  induction pre with
  | nil =>
    intro bs p b hv hnd hall _ hpost hb hp hm
    simp only [List.nil_append, pass1]
    apply pass1_mem_of_not_match (pass1Entry_pos_annotate hv hnd hall hb hp hm)
    intro e he
    show strContains (pyLower (annotate b v).payload) (payloadField e.1) = false
    rw [annotate_payload, hp]
    exact hpost e he
  | cons e pre ih =>
    intro bs p b hv hnd hall hpre hpost hb hp hm
    simp only [List.cons_append, pass1]
    apply ih _ p b hv
    · exact (pass1Entry_payload_sublist _ _ _).nodup hnd
    · intro b' hb' hmatch
      have hmm : b'.payload ∈ bs.map Button.payload :=
        (pass1Entry_payload_sublist _ _ _).subset (List.mem_map.mpr ⟨b', hb', rfl⟩)
      rcases List.mem_map.mp hmm with ⟨b'', hb'', hpb⟩
      rw [← hpb]
      apply hall b'' hb''
      rw [hpb]
      exact hmatch
    · exact fun e' he' => hpre e' (List.mem_cons_of_mem _ he')
    · exact hpost
    · apply pass1Entry_mem_of_not_match hb
      rw [hp]
      exact hpre e (List.mem_cons_self _ _)
    · exact hp
    · exact hm

theorem pass2Entry_extend {k : String} {v : Nat} {bs : List Button} {b : Button} (hb : b ∈ bs) :
    ∃ b' ∈ (pass2Entry k v bs).1, b'.payload = b.payload ∧
      ∀ s, strContains b.title s = true → strContains b'.title s = true := by
  induction bs with
  | nil => cases hb
  | cons hd tl ih =>
    simp only [pass2Entry]
    cases hc : strContains (pyLower hd.payload) k
    · rw [if_neg (by simp [hc])]
      rcases List.mem_cons.mp hb with rfl | hmem
      · exact ⟨b, List.mem_cons_self _ _, rfl, fun s h => h⟩
      · rcases ih hmem with ⟨b', hb', hpb, ht⟩
        exact ⟨b', List.mem_cons_of_mem _ hb', hpb, ht⟩
    · rw [if_pos (by simp [hc])]
      rcases List.mem_cons.mp hb with rfl | hmem
      · exact ⟨annotate b v, List.mem_cons_self _ _, rfl,
          fun s h => annotate_title_contains_of b v s h⟩
      · exact ⟨b, List.mem_cons_of_mem _ hmem, rfl, fun s h => h⟩

theorem pass2_extend {es : List (String × Nat)} {bs : List Button} {b : Button} (hb : b ∈ bs) :
    ∃ b' ∈ pass2 es bs, b'.payload = b.payload ∧
      ∀ s, strContains b.title s = true → strContains b'.title s = true := by
  induction es generalizing bs b with
  | nil => exact ⟨b, hb, rfl, fun s h => h⟩
  | cons e es ih =>
    simp only [pass2]
    rcases pass2Entry_extend hb with ⟨b1, hb1, hp1, ht1⟩
    rcases ih hb1 with ⟨b2, hb2, hp2, ht2⟩
    exact ⟨b2, hb2, hp2.trans hp1, fun s h => ht2 s (ht1 s h)⟩

theorem filter_singleton_decomp {α : Type} (P : α → Bool) :
    ∀ (l : List α) (a : α), l.filter P = [a] →
    ∃ l₁ l₂, l = l₁ ++ a :: l₂ ∧ (∀ x ∈ l₁, P x = false) ∧ (∀ x ∈ l₂, P x = false) := by
  intro l
  induction l with
  | nil =>
    intro a h
    cases h
  | cons hd tl ih =>
    intro a h
    cases hc : P hd
    · rw [List.filter_cons_of_neg (by simp [hc])] at h
      rcases ih a h with ⟨l₁, l₂, rfl, h1, h2⟩
      refine ⟨hd :: l₁, l₂, rfl, ?_, h2⟩
      intro x hx
      rcases List.mem_cons.mp hx with rfl | hx
      · exact hc
      · exact h1 x hx
    · rw [List.filter_cons_of_pos (by simp [hc])] at h
      injection h with h1 h2
      subst h1
      refine ⟨[], tl, rfl, ?_, ?_⟩
      · intro x hx
        cases hx
      · intro x hx
        cases hpx : P x
        · rfl
        · exact absurd hpx ((List.filter_eq_nil_iff.mp h2) x hx)

/-- C5, amended: restricted to entries whose matching is unambiguous — the
entry `(k, v)` matches candidate `b`, no other candidate payload matches `k`,
no other `values` entry matches `b`, and candidate payloads are distinct (all
true of the real catalogs and count results) — the claim holds: a 0-count
entry removes its matched option from the output, and a positive-count entry
keeps it with the count appended to its displayed title. Without the
unambiguity hypotheses the claim is false (see the counterexample). -/
theorem C5_zero_removes_pos_annotates (cr : CountResult) (buttons : List Button)
    (k : String) (v : Nat) (b : Button)
    (hnd : (buttons.map Button.payload).Nodup)
    (hmem : (k, v) ∈ cr.values)
    (hb : b ∈ buttons)
    (hmatch : strContains (pyLower b.payload) (payloadField k) = true)
    (huniq : ∀ b' ∈ buttons, strContains (pyLower b'.payload) (payloadField k) = true →
      b'.payload = b.payload)
    (honce : (cr.values.filter
        (fun e => strContains (pyLower b.payload) (payloadField e.1))).length ≤ 1) :
    (v = 0 → ∀ b' ∈ add_count_to_button_titles cr buttons, b'.payload ≠ b.payload) ∧
    (v ≠ 0 → ∃ b' ∈ add_count_to_button_titles cr buttons,
      b'.payload = b.payload ∧ strContains b'.title (countTag v) = true) := by
  have hfmem : (k, v) ∈ cr.values.filter
      (fun e => strContains (pyLower b.payload) (payloadField e.1)) :=
    List.mem_filter.mpr ⟨hmem, hmatch⟩
  have hlen1 : (cr.values.filter
      (fun e => strContains (pyLower b.payload) (payloadField e.1))).length = 1 :=
    Nat.le_antisymm honce (List.length_pos.mpr (List.ne_nil_of_mem hfmem))
  obtain ⟨a, hfa⟩ := List.length_eq_one.mp hlen1
  have hae : a = (k, v) := by
    rw [hfa] at hfmem
    exact (List.mem_singleton.mp hfmem).symm
  subst hae
  obtain ⟨pre, post, hsplit, hpre, hpost⟩ :=
    filter_singleton_decomp (fun e => strContains (pyLower b.payload) (payloadField e.1))
      cr.values (k, v) hfa
  constructor
  · rintro rfl
    intro b' hb' hcontra
    have habs : b.payload ∉ (pass1 cr.values buttons).1.map Button.payload := by
      rw [hsplit]
      exact pass1_zero_main pre k post buttons b.payload hnd huniq hpre
        ⟨b, hb, rfl, hmatch⟩
    have hfinal : b.payload ∉ (add_count_to_button_titles cr buttons).map Button.payload := by
      simp only [add_count_to_button_titles]
      split
      · split
        · rw [pass2_payload_map]
          exact habs
        · exact habs
      · exact habs
    exact hfinal (List.mem_map.mpr ⟨b', hb', hcontra⟩)
  · intro hv
    have hment : annotate b v ∈ (pass1 cr.values buttons).1 := by
      rw [hsplit]
      exact pass1_pos_main pre k v post buttons b.payload b hv hnd huniq hpre hpost hb
        rfl hmatch
    simp only [add_count_to_button_titles]
    split
    · split
      · rcases pass2_extend hment with ⟨b', hb', hpb, ht⟩
        exact ⟨b', hb', by rw [hpb, annotate_payload], ht _ (annotate_title_contains b v)⟩
      · exact ⟨annotate b v, hment, annotate_payload _ _, annotate_title_contains b v⟩
    · exact ⟨annotate b v, hment, annotate_payload _ _, annotate_title_contains b v⟩

/-- C5, witness for the amended claim: the count result `{"deutsch": 4}` on
the language catalog keeps the German option and annotates its title with
`" (4)"`. -/
theorem C5_witness :
    ∃ b' ∈ add_count_to_button_titles ⟨"language", [("deutsch", 4)], none⟩ languageButtons,
      b'.payload = "/inform\x7b\"language\":\"Deutsch\"\x7d" ∧
      strContains b'.title (countTag 4) = true :=
  (C5_zero_removes_pos_annotates ⟨"language", [("deutsch", 4)], none⟩ languageButtons
      "deutsch" 4 ⟨"language_option_german", "/inform\x7b\"language\":\"Deutsch\"\x7d"⟩
      (by decide) (by decide) (by decide) (by decide) (by decide) (by decide)).2
    (by decide)
